import Mathlib

/-!
Shallow embedding of the ome-ngff crate's validation and coordinate-transform
engine (src/util.rs, src/v0_4/coordinate_transformations.rs, axes.rs,
multiscale.rs, plate.rs, well.rs), with theorems settling the spec claims.

Modelling conventions:
- Rust `f64` is modelled by `ℚ` (exact arithmetic); `usize`/`u64` by `Nat`.
- An in-place fallible operation on a coordinate buffer `&mut [f64]` is
  modelled by a function `List ℚ → TOut`: `none` models a panic
  (Rust `unimplemented!()` or an out-of-bounds index), `some (buf, some e)`
  models returning `Err(e)` with the buffer left in state `buf`, and
  `some (buf, none)` models returning `Ok(())` with final buffer `buf`.
- `HashSet` is used by the source only for membership tests, so it is
  modelled by a `List` with decidable membership.
-/

deriving instance DecidableEq for Except

namespace OmeNgff

/-- Error from `util.rs`: `InconsistentDimensionality(usize, usize)`. -/
structure InconsistentDimensionality where
  dim1 : Nat
  dim2 : Nat
deriving DecidableEq, Repr

/-- `InconsistentDimensionality::check_dims`. -/
def check_dims (dim1 dim2 : Nat) : Except InconsistentDimensionality Nat :=
  if dim1 = dim2 then .ok dim1 else .error ⟨dim1, dim2⟩

/-- `InconsistentDimensionality::check_dim_opts`. -/
def check_dim_opts (dim1 dim2 : Option Nat) :
    Except InconsistentDimensionality (Option Nat) :=
  match dim1 with
  | none => .ok dim2
  | some n1 =>
    match dim2 with
    | none => .ok (some n1)
    | some n2 => (check_dims n1 n2).map some

/-- `TranslationOrPath` from `coordinate_transformations.rs`. -/
inductive TranslationOrPath where
  | path (s : String)
  | translation (v : List ℚ)
deriving DecidableEq, Repr

/-- `ScaleOrPath` from `coordinate_transformations.rs`. -/
inductive ScaleOrPath where
  | path (s : String)
  | scale (v : List ℚ)
deriving DecidableEq, Repr

/-- `CoordinateTransformation` from `coordinate_transformations.rs`. -/
inductive CoordinateTransformation where
  | identity
  | translation (t : TranslationOrPath)
  | scale (t : ScaleOrPath)
deriving DecidableEq, Repr

/-- Outcome of an in-place fallible transform call: `none` = panic,
`some (buf, some e)` = `Err(e)` with buffer state `buf`,
`some (buf, none)` = `Ok(())` with buffer state `buf`. -/
abbrev TOut := Option (List ℚ × Option InconsistentDimensionality)

/-- `MaybeNdim for TranslationOrPath`. -/
def TranslationOrPath.maybe_ndim : TranslationOrPath → Option Nat
  | .path _ => none
  | .translation v => some v.length

/-- `MaybeNdim for ScaleOrPath`. -/
def ScaleOrPath.maybe_ndim : ScaleOrPath → Option Nat
  | .path _ => none
  | .scale v => some v.length

/-- `MaybeNdim for CoordinateTransformation`. -/
def CoordinateTransformation.maybe_ndim : CoordinateTransformation → Option Nat
  | .identity => none
  | .translation t => t.maybe_ndim
  | .scale t => t.maybe_ndim

/-- `coord.iter_mut().zip(v.iter())` with `*c op= t`: the first
`min (length coord) (length v)` entries are combined, the rest are kept. -/
def zipMut (op : ℚ → ℚ → ℚ) (coord v : List ℚ) : List ℚ :=
  coord.zipWith op v ++ coord.drop v.length

/-- `Transform::transform for TranslationOrPath`: dimensionality check, then
`Path` panics (`unimplemented!()`), `Translation` adds element-wise. -/
def TranslationOrPath.transform (t : TranslationOrPath) (coord : List ℚ) : TOut :=
  match check_dim_opts t.maybe_ndim (some coord.length) with
  | .error e => some (coord, some e)
  | .ok _ =>
    match t with
    | .path _ => none
    | .translation v => some (zipMut (· + ·) coord v, none)

/-- `Transform::rev_transform for TranslationOrPath`: subtracts element-wise. -/
def TranslationOrPath.rev_transform (t : TranslationOrPath) (coord : List ℚ) : TOut :=
  match check_dim_opts t.maybe_ndim (some coord.length) with
  | .error e => some (coord, some e)
  | .ok _ =>
    match t with
    | .path _ => none
    | .translation v => some (zipMut (· - ·) coord v, none)

/-- `Transform::transform for ScaleOrPath`: multiplies element-wise. -/
def ScaleOrPath.transform (t : ScaleOrPath) (coord : List ℚ) : TOut :=
  match check_dim_opts t.maybe_ndim (some coord.length) with
  | .error e => some (coord, some e)
  | .ok _ =>
    match t with
    | .path _ => none
    | .scale v => some (zipMut (· * ·) coord v, none)

/-- `Transform::rev_transform for ScaleOrPath`: divides element-wise. -/
def ScaleOrPath.rev_transform (t : ScaleOrPath) (coord : List ℚ) : TOut :=
  match check_dim_opts t.maybe_ndim (some coord.length) with
  | .error e => some (coord, some e)
  | .ok _ =>
    match t with
    | .path _ => none
    | .scale v => some (zipMut (· / ·) coord v, none)

/-- `Transform::transform for CoordinateTransformation`. -/
def CoordinateTransformation.transform : CoordinateTransformation → List ℚ → TOut
  | .identity, coord => some (coord, none)
  | .translation t, coord => t.transform coord
  | .scale t, coord => t.transform coord

/-- `Transform::rev_transform for CoordinateTransformation`. -/
def CoordinateTransformation.rev_transform : CoordinateTransformation → List ℚ → TOut
  | .identity, coord => some (coord, none)
  | .translation t, coord => t.rev_transform coord
  | .scale t, coord => t.rev_transform coord

/-- `Transform::transform for &[CoordinateTransformation]`:
`self.iter().try_for_each(|t| t.transform(coord))`. -/
def sliceTransform : List CoordinateTransformation → List ℚ → TOut
  | [], coord => some (coord, none)
  | t :: ts, coord =>
    match t.transform coord with
    | none => none
    | some (c, some e) => some (c, some e)
    | some (c, none) => sliceTransform ts c

/-- `Transform::rev_transform for &[CoordinateTransformation]`:
`self.iter().rev().try_for_each(|t| t.transform(coord))` — note the source
applies each element's forward `transform` (not `rev_transform`) over the
reversed slice. -/
def sliceRevTransform (ts : List CoordinateTransformation) (coord : List ℚ) : TOut :=
  sliceTransform ts.reverse coord

/-- `InvalidCoordinateTransforms` from `coordinate_transformations.rs`. -/
inductive InvalidCoordinateTransforms where
  | missingScale
  | order
  | unsupported (s : String)
  | count (s : String)
  | dimensions (e : InconsistentDimensionality)
deriving DecidableEq, Repr

/-- The `for c in cs.iter()` loop of `InvalidCoordinateTransforms::validate`,
with the mutable state `ndim`, `has_scale`, `has_transl` made explicit. -/
def validateCTLoop : List CoordinateTransformation → Option Nat → Bool → Bool →
    Except InvalidCoordinateTransforms (Option Nat)
  | [], ndim, _, _ => .ok ndim
  | c :: rest, ndim, has_scale, has_transl =>
    match check_dim_opts ndim c.maybe_ndim with
    | .error e => .error (.dimensions e)
    | .ok ndim2 =>
      match c with
      | .identity => .error (.unsupported ("identity"))
      | .translation _ =>
        if !has_scale then .error .order
        else if has_transl then .error (.count ("Multiple translations found"))
        else validateCTLoop rest ndim2 has_scale true
      | .scale _ =>
        if has_scale then .error (.count ("Multiple scales found"))
        else validateCTLoop rest ndim2 true has_transl

/-- `InvalidCoordinateTransforms::validate`. -/
def InvalidCoordinateTransforms.validate (cs : List CoordinateTransformation)
    (require_scale : Bool) (ndim : Option Nat) :
    Except InvalidCoordinateTransforms (Option Nat) :=
  if require_scale && cs.isEmpty then .error .missingScale
  else validateCTLoop cs ndim false false

/-- `SpaceUnit` from `axes.rs`. -/
inductive SpaceUnit where
  | angstrom | attometer | centimeter | decimeter | exameter | femtometer
  | foot | gigameter | hectometer | inch | kilometer | megameter | meter
  | micrometer | mile | millimeter | nanometer | parsec | petameter
  | picometer | terameter | yard | yoctometer | yottameter | zeptometer
  | zettameter
  | other (s : String)
deriving DecidableEq, Repr

/-- `TimeUnit` from `axes.rs`. -/
inductive TimeUnit where
  | attosecond | centisecond | day | decisecond | exasecond | femtosecond
  | gigasecond | hectosecond | hour | kilosecond | megasecond | microsecond
  | millisecond | minute | nanosecond | parsec | petasecond | picosecond
  | second | terasecond | yoctosecond | yottasecond | zeptosecond
  | zettasecond
  | other (s : String)
deriving DecidableEq, Repr

/-- `CoreAxis` from `axes.rs`. -/
inductive CoreAxis where
  | space (name : String) (unit : Option SpaceUnit)
  | time (name : String) (unit : Option TimeUnit)
  | channel (name : String) (unit : Option String)
deriving DecidableEq, Repr

/-- `Axis` from `axes.rs`. -/
inductive Axis where
  | core (a : CoreAxis)
  | custom (name : String) (axis_type : Option String) (unit : Option String)
deriving DecidableEq, Repr

/-- `Axis::name`. -/
def Axis.name : Axis → String
  | .core (.space n _) => n
  | .core (.time n _) => n
  | .core (.channel n _) => n
  | .custom n _ _ => n

/-- `InvalidAxes` from `axes.rs`. -/
inductive InvalidAxes where
  | count (n : Nat)
  | nspace
  | ntime
  | nother
  | order
  | nonUniqueName
deriving DecidableEq, Repr

/-- The `for a in axes.iter()` loop of `InvalidAxes::validate`, with the
mutable state `space_count`, `has_time`, `has_other`, `names` made explicit
(the `HashSet` of seen names is modelled as a list used only for membership),
followed by the trailing `space_count < 2` check. -/
def validateAxesLoop : List Axis → Nat → Bool → Bool → List String →
    Except InvalidAxes Unit
  | [], space_count, _, _, _ =>
    if space_count < 2 then .error .nspace else .ok ()
  | a :: rest, space_count, has_time, has_other, names =>
    if a.name ∈ names then .error .nonUniqueName
    else
      match a with
      | .core (.space _ _) =>
        if 3 ≤ space_count then .error .nspace
        else validateAxesLoop rest (space_count + 1) has_time has_other (a.name :: names)
      | .core (.time _ _) =>
        if 0 < space_count ∨ has_other then .error .order
        else if has_time then .error .ntime
        else validateAxesLoop rest space_count true has_other (a.name :: names)
      | .core (.channel _ _) =>
        if 0 < space_count then .error .order
        else if has_other then .error .nother
        else validateAxesLoop rest space_count has_time true (a.name :: names)
      | .custom _ _ _ =>
        if 0 < space_count then .error .order
        else if has_other then .error .nother
        else validateAxesLoop rest space_count has_time true (a.name :: names)

/-- `InvalidAxes::validate`. -/
def InvalidAxes.validate (axes : List Axis) : Except InvalidAxes Unit :=
  if axes.length < 2 ∨ 5 < axes.length then .error (.count axes.length)
  else validateAxesLoop axes 0 false false []

/-- `ZPath` from `util.rs`. -/
abbrev ZPath := String

/-- `serde_json::Value` payloads: never inspected by any validator or
transform, so modelled as `Unit`. -/
abbrev Value := Unit

/-- `MultiscaleDataset` from `multiscale.rs`. -/
structure MultiscaleDataset where
  path : ZPath
  coordinate_transformations : List CoordinateTransformation
deriving DecidableEq, Repr

/-- `MultiscaleDataset::validate`. -/
def MultiscaleDataset.validate (ds : MultiscaleDataset) (ndim : Option Nat) :
    Except InvalidCoordinateTransforms (Option Nat) :=
  InvalidCoordinateTransforms.validate ds.coordinate_transformations true ndim

/-- `InvalidMultiscale` from `multiscale.rs`. -/
inductive InvalidMultiscale where
  | axes (e : InvalidAxes)
  | transforms (e : InvalidCoordinateTransforms)
  | dimensions (e : InconsistentDimensionality)
deriving DecidableEq, Repr

/-- `Multiscale` from `multiscale.rs` (the `metadata` map, like the other
`serde_json::Value` payloads, is never inspected). -/
structure Multiscale where
  axes : List Axis
  datasets : List MultiscaleDataset
  coordinate_transformations : Option (List CoordinateTransformation)
  name : Option Value
  version : Option Value
  multiscale_type : Option Value
  metadata : Option Value
deriving DecidableEq, Repr

/-- `Ndim for Multiscale`: `self.axes.len()`. -/
def Multiscale.ndim (ms : Multiscale) : Nat := ms.axes.length

/-- The `for ds in self.datasets.iter()` loop of `Multiscale::validate`:
each dataset is validated with the same incoming `Some(ndim)` and the
returned dimensionality is discarded. -/
def validateDatasetsLoop : List MultiscaleDataset → Nat →
    Except InvalidCoordinateTransforms Unit
  | [], _ => .ok ()
  | ds :: rest, n =>
    match ds.validate (some n) with
    | .error e => .error e
    | .ok _ => validateDatasetsLoop rest n

/-- `Multiscale::validate`; the `?` operator converts the sub-errors into
`InvalidMultiscale` via its `From` impls. -/
def Multiscale.validate (ms : Multiscale) : Except InvalidMultiscale Unit :=
  match InvalidAxes.validate ms.axes with
  | .error e => .error (.axes e)
  | .ok _ =>
    match validateDatasetsLoop ms.datasets ms.ndim with
    | .error e => .error (.transforms e)
    | .ok _ =>
      match ms.coordinate_transformations with
      | none => .ok ()
      | some cs =>
        match InvalidCoordinateTransforms.validate cs false (some ms.ndim) with
        | .error e => .error (.transforms e)
        | .ok _ => .ok ()

/-- `Transform::transform for (&Multiscale, usize)`: the dataset is fetched
first by `self.0.datasets[self.1]` (a panicking index, modelled by `none` on
out-of-range), then the dataset's transforms are applied, then the group-wide
transforms if present. -/
def msTransform (ms : Multiscale) (i : Nat) (coord : List ℚ) : TOut :=
  match ms.datasets.get? i with
  | none => none
  | some ds =>
    match sliceTransform ds.coordinate_transformations coord with
    | none => none
    | some (c, some e) => some (c, some e)
    | some (c, none) =>
      match ms.coordinate_transformations with
      | none => some (c, none)
      | some cs => sliceTransform cs c

/-- The `if let Some(cs) = &self.0.coordinate_transformations` step of
`rev_transform for (&Multiscale, usize)`: revert the group-wide transforms
when present, otherwise leave the buffer untouched. -/
def msGroupRev (ms : Multiscale) (coord : List ℚ) : TOut :=
  match ms.coordinate_transformations with
  | none => some (coord, none)
  | some cs => sliceRevTransform cs coord

/-- `Transform::rev_transform for (&Multiscale, usize)`: the group-wide
transforms (if present) are reverted first, and only then is the dataset
fetched by the panicking index `self.0.datasets[self.1]`. -/
def msRevTransform (ms : Multiscale) (i : Nat) (coord : List ℚ) : TOut :=
  match msGroupRev ms coord with
  | none => none
  | some (c, some e) => some (c, some e)
  | some (c, none) =>
    match ms.datasets.get? i with
    | none => none
    | some ds => sliceRevTransform ds.coordinate_transformations c

/-- Rust `char::is_alphanumeric`; agrees with Lean's `Char.isAlphanum` on the
ASCII inputs these validators are exercised with (the Unicode general
categories beyond ASCII are not modelled; the predicate appears only in
hypotheses and concrete witnesses). -/
def rustIsAlphanumeric (c : Char) : Bool := c.isAlphanum

/-- Rust `s.chars().all(p)`, over the string's character list. -/
def charsAll (s : String) (p : Char → Bool) : Bool := s.data.all p

/-- `Acquisition` from `plate.rs` (`AcquisitionId = u64`, `Timestamp = u64`
modelled as `Nat`). -/
structure Acquisition where
  id : Nat
  name : Option String
  maximum_field_count : Option Nat
  description : Option String
  start_time : Option Nat
  end_time : Option Nat
deriving DecidableEq, Repr

/-- `Index` from `plate.rs`. -/
structure Index where
  name : String
deriving DecidableEq, Repr

/-- `PlateWell` from `plate.rs`. -/
structure PlateWell where
  path : ZPath
  row_index : Nat
  column_index : Nat
deriving DecidableEq, Repr

/-- `Plate` from `plate.rs`. -/
structure Plate where
  acquisitions : Option (List Acquisition)
  columns : List Index
  field_count : Option Nat
  name : Option String
  rows : List Index
  version : Option String
  wells : List PlateWell
deriving DecidableEq, Repr

/-- `InvalidPlate` from `plate.rs`. -/
inductive InvalidPlate where
  | inconsistentWells
  | nonexistentWell (i : Nat)
  | nonUniqueIndex
  | invalidIndex
  | nonUniqueAcquisitionId
  | acquisitionTime
deriving DecidableEq, Repr

/-- The loop of `validate_acquisitions` in `plate.rs`, with the `HashSet` of
seen ids modelled as a list used only for membership. -/
def validateAcquisitionsLoop : List Acquisition → List Nat →
    Except InvalidPlate Unit
  | [], _ => .ok ()
  | acq :: rest, ids =>
    if acq.id ∈ ids then .error .nonUniqueAcquisitionId
    else
      match acq.start_time, acq.end_time with
      | some start, some stop =>
        if stop < start then .error .acquisitionTime
        else validateAcquisitionsLoop rest (acq.id :: ids)
      | _, _ => validateAcquisitionsLoop rest (acq.id :: ids)

/-- `validate_acquisitions` from `plate.rs`. -/
def validate_acquisitions (acqs : List Acquisition) : Except InvalidPlate Unit :=
  validateAcquisitionsLoop acqs []

/-- The loop of `validate_index` in `plate.rs`: duplicate check (via the
`HashSet` insert) first, then the alphanumeric check. -/
def validateIndexLoop : List Index → List String → Except InvalidPlate Unit
  | [], _ => .ok ()
  | idx :: rest, names =>
    if idx.name ∈ names then .error .nonUniqueIndex
    else if !(charsAll idx.name rustIsAlphanumeric) then .error .invalidIndex
    else validateIndexLoop rest (idx.name :: names)

/-- `validate_index` from `plate.rs`. -/
def validate_index (idxs : List Index) : Except InvalidPlate Unit :=
  validateIndexLoop idxs []

/-- The `for well in self.wells.iter()` loop of `Plate::validate`: resolve the
row index, then the column index (each failing with `NonexistentWell` carrying
the offending index), then compare the stored path against
`format!("\x7brow_name\x7d/\x7bcol_name\x7d")`. -/
def checkWellsLoop (rows columns : List Index) : List PlateWell →
    Except InvalidPlate Unit
  | [] => .ok ()
  | w :: rest =>
    match rows.get? w.row_index with
    | none => .error (.nonexistentWell w.row_index)
    | some r =>
      match columns.get? w.column_index with
      | none => .error (.nonexistentWell w.column_index)
      | some c =>
        if w.path ≠ r.name ++ "/" ++ c.name then .error .inconsistentWells
        else checkWellsLoop rows columns rest

/-- The `if let Some(acqs) = self.acquisitions` step of `Plate::validate`. -/
def validateOptAcquisitions : Option (List Acquisition) → Except InvalidPlate Unit
  | none => .ok ()
  | some acqs => validate_acquisitions acqs

/-- `Plate::validate`. -/
def Plate.validate (p : Plate) : Except InvalidPlate Unit :=
  match validate_index p.rows with
  | .error e => .error e
  | .ok _ =>
    match validate_index p.columns with
    | .error e => .error e
    | .ok _ =>
      match validateOptAcquisitions p.acquisitions with
      | .error e => .error e
      | .ok _ => checkWellsLoop p.rows p.columns p.wells

/-- `FieldOfView` from `well.rs`. -/
structure FieldOfView where
  path : ZPath
  acquisition : Option Nat
deriving DecidableEq, Repr

/-- `Well` from `well.rs`. -/
structure Well where
  version : Option String
  images : List FieldOfView
deriving DecidableEq, Repr

/-- `InvalidWell` from `well.rs`. -/
inductive InvalidWell where
  | nonUniquePaths
  | unknownAcquisition (id : Nat)
  | noAcquisition
  | invalidPath
deriving DecidableEq, Repr

/-- The `for im in self.images.iter()` loop of `Well::validate`: alphanumeric
path check, then uniqueness (via the `HashSet` insert, modelled as a list used
only for membership), then the acquisition-id checks when a set was given. -/
def wellLoop (acquisitions : Option (List Nat)) : List FieldOfView →
    List String → Except InvalidWell Unit
  | [], _ => .ok ()
  | im :: rest, paths =>
    if !(charsAll im.path rustIsAlphanumeric) then .error .invalidPath
    else if im.path ∈ paths then .error .nonUniquePaths
    else
      match acquisitions with
      | some acqs =>
        match im.acquisition with
        | some a =>
          if a ∉ acqs then .error (.unknownAcquisition a)
          else wellLoop acquisitions rest (im.path :: paths)
        | none => .error .noAcquisition
      | none => wellLoop acquisitions rest (im.path :: paths)

/-- `Well::validate`. -/
def Well.validate (w : Well) (acquisitions : Option (List Nat)) :
    Except InvalidWell Unit :=
  wellLoop acquisitions w.images []

/-! Helpers for stating the theorems. -/

/-- The error of an `Except` value, if any. -/
def exceptError {ε α : Type} : Except ε α → Option ε
  | .error e => some e
  | .ok _ => none

/-- Whether an `Except` value is an error. -/
def isErr {ε α : Type} : Except ε α → Bool
  | .error _ => true
  | .ok _ => false

/-- Whether an in-place transform outcome is a successful return
(neither a panic nor an error). -/
def isOkOut : TOut → Bool
  | some (_, none) => true
  | _ => false

theorem exceptError_eq_none_iff {ε : Type} (x : Except ε Unit) :
    exceptError x = none ↔ x = .ok () := by
  cases x with
  | error e => simp [exceptError]
  | ok u => cases u; simp [exceptError]

/-! C1: the round-trip law `rev_transform ∘ transform = id` for slices of
inline transforms. The slice `rev_transform` in the source iterates the
reversed slice but applies each element's forward `transform`, so the law
fails already for a single translation. -/

/-- C1: the claim that applying a sequence of inline Translation/Scale
transforms and then reverting it via the slice `rev_transform` returns the
original buffer fails on the code: for the single-transform sequence
`[Translation [1]]` on buffer `[0]`, `transform` yields `[1]` but
`rev_transform` then yields `[2]`, not `[0]` — the slice `rev_transform`
re-applies the forward transform of each element. -/
theorem slice_roundtrip_fails_on_translation :
    sliceTransform [CoordinateTransformation.translation (.translation [(1 : ℚ)])]
      [(0 : ℚ)] = some ([1], none) ∧
    sliceRevTransform [CoordinateTransformation.translation (.translation [(1 : ℚ)])]
      [(1 : ℚ)] = some ([2], none) ∧
    [(2 : ℚ)] ≠ [(0 : ℚ)] := by
  refine ⟨?_, ?_, by norm_num⟩ <;>
    norm_num [sliceRevTransform, sliceTransform, CoordinateTransformation.transform,
      TranslationOrPath.transform, TranslationOrPath.maybe_ndim, check_dim_opts,
      check_dims, zipMut, Except.map]

/-! C2: behaviour of reference-valued (`Path`) transforms. -/

/-- C2 counterexample: the claim that calling `transform`/`rev_transform` on a
reference-valued (Path) transform returns an ordinary error value and never
panics is false: at the concrete Path transform with path `p` and buffer
`[0]`, all four calls panic (the source hits `unimplemented!()`), modelled by
outcome `none`, rather than returning `some (buf, some e)`. -/
theorem path_transform_returns_no_error_value :
    CoordinateTransformation.transform (.translation (.path ("p"))) [(0 : ℚ)] = none ∧
    CoordinateTransformation.rev_transform (.translation (.path ("p"))) [(0 : ℚ)] = none ∧
    CoordinateTransformation.transform (.scale (.path ("p"))) [(0 : ℚ)] = none ∧
    CoordinateTransformation.rev_transform (.scale (.path ("p"))) [(0 : ℚ)] = none :=
  ⟨rfl, rfl, rfl, rfl⟩

/-- C2 amended: for every reference-valued (Path) Translation or Scale
transform and every coordinate buffer, `transform` and `rev_transform` panic
(the source's `unimplemented!()`, after the dimensionality check trivially
passes); in particular they never silently skip the transform by returning
success, and never return an ordinary error value. -/
theorem path_transform_panics (s : String) (coord : List ℚ) :
    CoordinateTransformation.transform (.translation (.path s)) coord = none ∧
    CoordinateTransformation.rev_transform (.translation (.path s)) coord = none ∧
    CoordinateTransformation.transform (.scale (.path s)) coord = none ∧
    CoordinateTransformation.rev_transform (.scale (.path s)) coord = none :=
  ⟨rfl, rfl, rfl, rfl⟩

/-! C3: dimensionality mismatch on a single inline transform. -/

/-- C3: for every inline Translation or Scale transform whose vector length
differs from the coordinate buffer's length, `transform` and `rev_transform`
return the dimensionality-conflict error carrying both lengths (the
transform's first, the buffer's second), and the returned buffer state is
exactly the input buffer: no element was mutated before the failure. -/
theorem mismatched_transform_dim_error_unmodified (v coord : List ℚ)
    (h : v.length ≠ coord.length) :
    CoordinateTransformation.transform (.translation (.translation v)) coord
      = some (coord, some ⟨v.length, coord.length⟩) ∧
    CoordinateTransformation.rev_transform (.translation (.translation v)) coord
      = some (coord, some ⟨v.length, coord.length⟩) ∧
    CoordinateTransformation.transform (.scale (.scale v)) coord
      = some (coord, some ⟨v.length, coord.length⟩) ∧
    CoordinateTransformation.rev_transform (.scale (.scale v)) coord
      = some (coord, some ⟨v.length, coord.length⟩) := by
  refine ⟨?_, ?_, ?_, ?_⟩ <;>
    simp [CoordinateTransformation.transform, CoordinateTransformation.rev_transform,
      TranslationOrPath.transform, TranslationOrPath.rev_transform,
      ScaleOrPath.transform, ScaleOrPath.rev_transform,
      TranslationOrPath.maybe_ndim, ScaleOrPath.maybe_ndim,
      check_dim_opts, check_dims, h, Except.map]

theorem mismatched_transform_dim_error_unmodified_witness :
    List.length [(1 : ℚ)] ≠ List.length [(0 : ℚ), 0] ∧
    CoordinateTransformation.transform (.translation (.translation [(1 : ℚ)]))
      [(0 : ℚ), 0] = some ([(0 : ℚ), 0], some ⟨1, 2⟩) :=
  ⟨by decide, (mismatched_transform_dim_error_unmodified [(1 : ℚ)] [(0 : ℚ), 0]
    (by decide)).1⟩

/-! C10: sequencing of a transform list is first-error, non-atomic. -/

theorem sliceTransform_append (l1 l2 : List CoordinateTransformation)
    (coord : List ℚ) :
    sliceTransform (l1 ++ l2) coord =
      match sliceTransform l1 coord with
      | none => none
      | some (c, some e) => some (c, some e)
      | some (c, none) => sliceTransform l2 c := by
  induction l1 generalizing coord with
  | nil => simp [sliceTransform]
  | cons t ts ih =>
    simp only [List.cons_append, sliceTransform]
    cases ht : t.transform coord with
    | none => rfl
    | some p =>
      obtain ⟨c, oe⟩ := p
      cases oe with
      | none => simp [ih]
      | some e => rfl

/-- C10: applying a list of transforms proceeds element by element in list
order and stops at the first failing element: if the prefix `ts` succeeds,
mutating the buffer from `coord` to `buf`, and the next element `t` fails its
dimensionality check (returning its error with `buf` untouched), then the
whole sequence returns that error with buffer state `buf` — the earlier
elements' mutations are kept and the tail `rest` is never reached, so the
sequence-level call is not atomic on error. -/
theorem slice_transform_keeps_earlier_mutations
    (ts : List CoordinateTransformation) (t : CoordinateTransformation)
    (rest : List CoordinateTransformation) (coord buf : List ℚ)
    (e : InconsistentDimensionality)
    (h1 : sliceTransform ts coord = some (buf, none))
    (h2 : t.transform buf = some (buf, some e)) :
    sliceTransform (ts ++ t :: rest) coord = some (buf, some e) := by
  rw [sliceTransform_append, h1]
  simp [sliceTransform, h2]

theorem slice_transform_keeps_earlier_mutations_witness :
    sliceTransform [CoordinateTransformation.scale (.scale [(2 : ℚ)])] [(3 : ℚ)]
      = some ([6], none) ∧
    CoordinateTransformation.transform (.translation (.translation [(1 : ℚ), 2]))
      [(6 : ℚ)] = some ([(6 : ℚ)], some ⟨2, 1⟩) ∧
    sliceTransform ([CoordinateTransformation.scale (.scale [(2 : ℚ)])] ++
        CoordinateTransformation.translation (.translation [(1 : ℚ), 2]) :: [])
      [(3 : ℚ)] = some ([(6 : ℚ)], some ⟨2, 1⟩) := by
  have h1 : sliceTransform [CoordinateTransformation.scale (.scale [(2 : ℚ)])]
      [(3 : ℚ)] = some ([6], none) := by
    norm_num [sliceTransform, CoordinateTransformation.transform,
      ScaleOrPath.transform, ScaleOrPath.maybe_ndim, check_dim_opts, check_dims,
      zipMut, Except.map]
  have h2 : CoordinateTransformation.transform
      (.translation (.translation [(1 : ℚ), 2])) [(6 : ℚ)]
      = some ([(6 : ℚ)], some ⟨2, 1⟩) := rfl
  exact ⟨h1, h2, slice_transform_keeps_earlier_mutations _ _ _ _ _ _ h1 h2⟩

/-! C9: the `(Multiscale, level-index)` transforms on an out-of-range index. -/

/-- A multiscale with no datasets but a group-wide 2-d translation, used to
exercise the out-of-range dataset index. -/
def msNoDatasets : Multiscale :=
  { axes := []
  , datasets := []
  , coordinate_transformations := some [.translation (.translation [(1 : ℚ), 2])]
  , name := none, version := none, multiscale_type := none, metadata := none }

/-- C9 counterexample: the claim that an out-of-range level index makes the
operation panic on the dataset lookup instead of returning an error is false
for `rev_transform`: on `msNoDatasets` with index 0 (out of range, there are
no datasets) and buffer `[0]`, the group-wide transforms are processed before
the dataset lookup and fail their dimensionality check, so the call returns an
ordinary error (`some (buf, some e)`) rather than panicking (`none`). -/
theorem out_of_range_rev_returns_error :
    List.length msNoDatasets.datasets ≤ 0 ∧
    msRevTransform msNoDatasets 0 [(0 : ℚ)] = some ([0], some ⟨2, 1⟩) :=
  ⟨by decide, rfl⟩

/-- C9 amended: for an out-of-range level index (`datasets.len() ≤ i`),
`transform` always panics at the dataset lookup (the lookup happens first),
while `rev_transform` — which processes the group-wide transforms before the
dataset lookup — either panics or returns the group transforms' error, but
never succeeds; so the precondition `i < datasets.len()` is required for
either call to return success, and for `transform` to be total. -/
theorem out_of_range_never_succeeds (ms : Multiscale) (i : Nat) (coord : List ℚ)
    (h : ms.datasets.length ≤ i) :
    msTransform ms i coord = none ∧
    isOkOut (msRevTransform ms i coord) = false := by
  have hget : ms.datasets[i]? = none := List.getElem?_eq_none h
  constructor
  · simp [msTransform, hget]
  · simp only [msRevTransform]
    cases hg : msGroupRev ms coord with
    | none => simp [isOkOut]
    | some p =>
      obtain ⟨c, oe⟩ := p
      cases oe with
      | none => simp [hget, isOkOut]
      | some e => simp [isOkOut]

theorem out_of_range_never_succeeds_witness :
    List.length msNoDatasets.datasets ≤ 0 ∧
    msTransform msNoDatasets 0 [(0 : ℚ)] = none ∧
    isOkOut (msRevTransform msNoDatasets 0 [(0 : ℚ)]) = false :=
  ⟨by decide,
    (out_of_range_never_succeeds msNoDatasets 0 [(0 : ℚ)] (by decide)).1,
    (out_of_range_never_succeeds msNoDatasets 0 [(0 : ℚ)] (by decide)).2⟩

/-! C6: a transform list containing Identity never validates. -/

theorem validateCTLoop_identity_mem (cs : List CoordinateTransformation)
    (h : CoordinateTransformation.identity ∈ cs) :
    ∀ (ndim : Option Nat) (has_scale has_transl : Bool),
      isErr (validateCTLoop cs ndim has_scale has_transl) = true := by
  induction cs with
  | nil => cases h
  | cons c rest ih =>
    intro ndim has_scale has_transl
    simp only [validateCTLoop]
    cases hd : check_dim_opts ndim c.maybe_ndim with
    | error e => simp [isErr]
    | ok nd2 =>
      cases c with
      | identity => simp [isErr]
      | translation t =>
        have hmem : CoordinateTransformation.identity ∈ rest := by
          rcases List.mem_cons.mp h with h1 | h1
          · exact absurd h1 (by simp)
          · exact h1
        cases has_scale with
        | false => simp [isErr]
        | true =>
          cases has_transl with
          | true => simp [isErr]
          | false => simpa using ih hmem nd2 true true
      | scale t =>
        have hmem : CoordinateTransformation.identity ∈ rest := by
          rcases List.mem_cons.mp h with h1 | h1
          · exact absurd h1 (by simp)
          · exact h1
        cases has_scale with
        | true => simp [isErr]
        | false => simpa using ih hmem nd2 true has_transl

/-- C6: for every transform list containing an Identity transform, and for
both values of the scale-mandatory flag and every incoming dimensionality,
transform-set validation returns an error, never success; and when the
Identity element is first in the list it is the unsupported-transform error
that is returned. -/
theorem identity_never_validates (cs : List CoordinateTransformation)
    (require_scale : Bool) (ndim : Option Nat)
    (h : CoordinateTransformation.identity ∈ cs) :
    isErr (InvalidCoordinateTransforms.validate cs require_scale ndim) = true ∧
    ∀ (rest : List CoordinateTransformation) (rs : Bool) (nd : Option Nat),
      InvalidCoordinateTransforms.validate (.identity :: rest) rs nd
        = .error (.unsupported ("identity")) := by
  constructor
  · unfold InvalidCoordinateTransforms.validate
    rcases hb : require_scale && cs.isEmpty with _ | _
    · simpa using validateCTLoop_identity_mem cs h ndim false false
    · simp [isErr]
  · intro rest rs nd
    unfold InvalidCoordinateTransforms.validate
    have hne : ((CoordinateTransformation.identity :: rest).isEmpty) = false := rfl
    simp only [hne, Bool.and_false, Bool.false_eq_true, if_false]
    simp only [validateCTLoop, CoordinateTransformation.maybe_ndim]
    cases nd <;> rfl

theorem identity_never_validates_witness :
    CoordinateTransformation.identity ∈ [CoordinateTransformation.identity] ∧
    isErr (InvalidCoordinateTransforms.validate
      [CoordinateTransformation.identity] true none) = true :=
  ⟨by decide, (identity_never_validates [CoordinateTransformation.identity]
    true none (by decide)).1⟩

/-! C4: characterization of `Multiscale::validate`. -/

/-- Spec-side reading of C4's error clause: the first violation, in order —
the axes error if the axes fail, else the error of the first failing dataset
(validated with Scale mandatory and incoming dimensionality the number of
axes), else the group-wide transform list's error (validated with Scale not
mandatory) when that list is present. -/
def specFirstViolation (ms : Multiscale) : Option InvalidMultiscale :=
  match exceptError (InvalidAxes.validate ms.axes) with
  | some e => some (.axes e)
  | none =>
    match ms.datasets.findSome?
        (fun ds => exceptError (ds.validate (some ms.axes.length))) with
    | some e => some (.transforms e)
    | none =>
      match ms.coordinate_transformations with
      | none => none
      | some cs =>
        (exceptError (InvalidCoordinateTransforms.validate cs false
          (some ms.axes.length))).map .transforms

theorem validateDatasetsLoop_error (dss : List MultiscaleDataset) (n : Nat) :
    exceptError (validateDatasetsLoop dss n) =
      dss.findSome? (fun ds => exceptError (ds.validate (some n))) := by
  induction dss with
  | nil => rfl
  | cons ds rest ih =>
    simp only [validateDatasetsLoop, List.findSome?_cons]
    cases h : ds.validate (some n) with
    | error e => simp [exceptError]
    | ok v => simpa [exceptError] using ih

/-- C4: `Multiscale::validate` succeeds if and only if the axes list
validates, every dataset's transform list validates with Scale mandatory and
incoming dimensionality `n = axes.len()`, and the group-wide transform list,
if present, validates with Scale not mandatory and dimensionality `n`; and on
failure it returns exactly the first violation, in that order. -/
theorem multiscale_validate_iff_first_violation (ms : Multiscale) :
    (ms.validate = .ok () ↔
      (InvalidAxes.validate ms.axes = .ok () ∧
       (∀ ds ∈ ms.datasets,
          exceptError (ds.validate (some ms.axes.length)) = none) ∧
       (∀ cs, ms.coordinate_transformations = some cs →
          exceptError (InvalidCoordinateTransforms.validate cs false
            (some ms.axes.length)) = none))) ∧
    exceptError ms.validate = specFirstViolation ms := by
  have key : exceptError ms.validate = specFirstViolation ms := by
    simp only [Multiscale.validate, specFirstViolation, Multiscale.ndim]
    rw [← validateDatasetsLoop_error ms.datasets ms.axes.length]
    cases ha : InvalidAxes.validate ms.axes with
    | error e => simp [exceptError]
    | ok u =>
      cases u
      cases hd : validateDatasetsLoop ms.datasets ms.axes.length with
      | error e => simp [exceptError]
      | ok u =>
        cases u
        cases hc : ms.coordinate_transformations with
        | none => simp [exceptError]
        | some cs =>
          cases hv : InvalidCoordinateTransforms.validate cs false
              (some ms.axes.length) with
          | error e => simp [exceptError, hv]
          | ok v => simp [exceptError, hv]
  refine ⟨?_, key⟩
  rw [← exceptError_eq_none_iff ms.validate, key]
  unfold specFirstViolation
  cases ha : exceptError (InvalidAxes.validate ms.axes) with
  | some e =>
    have ha2 : ¬ InvalidAxes.validate ms.axes = .ok () := by
      intro hok
      rw [hok] at ha
      simp [exceptError] at ha
    simp [ha2]
  | none =>
    have ha2 : InvalidAxes.validate ms.axes = .ok () :=
      (exceptError_eq_none_iff _).mp ha
    cases hd : ms.datasets.findSome?
        (fun ds => exceptError (ds.validate (some ms.axes.length))) with
    | some e =>
      have hb : ¬ ∀ ds ∈ ms.datasets,
          exceptError (ds.validate (some ms.axes.length)) = none := by
        intro hall
        have hn := List.findSome?_eq_none_iff.mpr hall
        rw [hn] at hd
        simp at hd
      simp [hb]
    | none =>
      have hb : ∀ ds ∈ ms.datasets,
          exceptError (ds.validate (some ms.axes.length)) = none :=
        List.findSome?_eq_none_iff.mp hd
      cases hc : ms.coordinate_transformations with
      | none =>
        constructor
        · intro _
          exact ⟨ha2, hb, fun cs2 hcs2 => by cases hcs2⟩
        · intro _
          rfl
      | some cs =>
        rw [Option.map_eq_none']
        constructor
        · intro hx
          refine ⟨ha2, hb, ?_⟩
          intro cs2 hcs2
          cases Option.some.inj hcs2
          exact hx
        · rintro ⟨-, -, hcall⟩
          exact hcall cs rfl

/-- The multiscale example from the source's test module (`deser_example`). -/
def msExample : Multiscale :=
  { axes :=
      [ .core (.time ("t") (some .millisecond))
      , .core (.channel ("c") none)
      , .core (.space ("z") (some .micrometer))
      , .core (.space ("y") (some .micrometer))
      , .core (.space ("x") (some .micrometer)) ]
  , datasets :=
      [ ⟨"0", [.scale (.scale [(1 : ℚ), 1, 1/2, 1/2, 1/2])]⟩
      , ⟨"1", [.scale (.scale [(1 : ℚ), 1, 1, 1, 1])]⟩
      , ⟨"2", [.scale (.scale [(1 : ℚ), 1, 2, 2, 2])]⟩ ]
  , coordinate_transformations := some [.scale (.scale [(1 : ℚ)/10, 1, 1, 1, 1])]
  , name := some ()
  , version := some ()
  , multiscale_type := some ()
  , metadata := some () }

theorem multiscale_validate_iff_first_violation_witness :
    Multiscale.validate msExample = .ok () :=
  (multiscale_validate_iff_first_violation msExample).1.mpr
    ⟨by decide, by decide, by intro cs hcs; cases Option.some.inj hcs; decide⟩

/-! C5: well-shaped axes sequences validate. -/

/-- Whether an axis is a Space axis. -/
def Axis.isSpace : Axis → Bool
  | .core (.space _ _) => true
  | _ => false

/-- Whether an axis is a Time axis. -/
def Axis.isTime : Axis → Bool
  | .core (.time _ _) => true
  | _ => false

/-- Whether an axis is a Channel or Custom ("other") axis. -/
def Axis.isOther : Axis → Bool
  | .core (.channel _ _) => true
  | .custom _ _ _ => true
  | _ => false

theorem validateAxesLoop_spaces (sp : List Axis) :
    ∀ (space_count : Nat) (has_time has_other : Bool) (names : List String),
      (∀ a ∈ sp, a.isSpace = true) →
      (sp.map Axis.name).Nodup →
      (∀ a ∈ sp, a.name ∉ names) →
      space_count + sp.length ≤ 3 →
      2 ≤ space_count + sp.length →
      validateAxesLoop sp space_count has_time has_other names = .ok () := by
  induction sp with
  | nil =>
    intro sc ht ho names _ _ _ _ hge
    simp only [List.length_nil, Nat.add_zero] at hge
    simp [validateAxesLoop, Nat.not_lt.mpr hge]
  | cons a rest ih =>
    intro sc ht ho names hsp hnodup hfresh hle hge
    have ha : a.isSpace = true := hsp a (List.mem_cons_self a rest)
    have hmem : a.name ∉ names := hfresh a (List.mem_cons_self a rest)
    have hsc : ¬ 3 ≤ sc := by
      simp only [List.length_cons] at hle
      omega
    cases a with
    | custom n t u => simp [Axis.isSpace] at ha
    | core ca =>
      cases ca with
      | time n u => simp [Axis.isSpace] at ha
      | channel n u => simp [Axis.isSpace] at ha
      | space n u =>
        simp only [validateAxesLoop, if_neg hmem, if_neg hsc]
        have hnodup2 : (rest.map Axis.name).Nodup :=
          (List.nodup_cons.mp hnodup).2
        have hhead : Axis.name (.core (.space n u)) ∉ rest.map Axis.name :=
          (List.nodup_cons.mp hnodup).1
        refine ih (sc + 1) ht ho _ (fun b hb => hsp b (List.mem_cons_of_mem _ hb))
          hnodup2 ?_ ?_ ?_
        · intro b hb
          simp only [List.mem_cons]
          push_neg
          refine ⟨?_, fun hbn => hfresh b (List.mem_cons_of_mem _ hb) hbn⟩
          intro hbe
          exact hhead (hbe ▸ List.mem_map_of_mem Axis.name hb)
        · simp only [List.length_cons] at hle
          omega
        · simp only [List.length_cons] at hge
          omega

theorem validateAxesLoop_other_spaces (op sp : List Axis)
    (hop1 : op.length ≤ 1) (hop2 : ∀ a ∈ op, a.isOther = true)
    (hsp : ∀ a ∈ sp, a.isSpace = true)
    (hlen : sp.length = 2 ∨ sp.length = 3) :
    ∀ (ht : Bool) (names : List String),
      ((op ++ sp).map Axis.name).Nodup →
      (∀ a ∈ op ++ sp, a.name ∉ names) →
      validateAxesLoop (op ++ sp) 0 ht false names = .ok () := by
  intro ht names hnodup hfresh
  cases op with
  | nil =>
    simp only [List.nil_append] at hnodup hfresh ⊢
    exact validateAxesLoop_spaces sp 0 ht false names hsp hnodup hfresh
      (by omega) (by omega)
  | cons o tl =>
    have htl : tl = [] := by
      have h0 : tl.length = 0 := by
        simp only [List.length_cons] at hop1
        omega
      exact List.length_eq_zero.mp h0
    subst htl
    have ho : o.isOther = true := hop2 o (List.mem_cons_self o [])
    have homem : o.name ∉ names := hfresh o (List.mem_cons_self o sp)
    have hnodup2 : (sp.map Axis.name).Nodup := by
      simp only [List.cons_append, List.map_cons, List.nodup_cons] at hnodup
      exact hnodup.2
    have hofresh : o.name ∉ sp.map Axis.name := by
      simp only [List.cons_append, List.map_cons, List.nodup_cons] at hnodup
      exact hnodup.1
    have hspfresh : ∀ a ∈ sp, a.name ∉ o.name :: names := by
      intro a hain
      simp only [List.mem_cons]
      push_neg
      refine ⟨?_, fun hn => hfresh a (List.mem_cons_of_mem o hain) hn⟩
      intro hne
      exact hofresh (hne ▸ List.mem_map_of_mem Axis.name hain)
    cases o with
    | custom n t u =>
      have homem2 : n ∉ names := homem
      simp only [List.cons_append, List.nil_append, validateAxesLoop, Axis.name,
        if_neg homem2, Nat.lt_irrefl, if_false, Bool.false_eq_true, decide_False]
      exact validateAxesLoop_spaces sp 0 ht true (n :: names) hsp hnodup2
        hspfresh (by omega) (by omega)
    | core ca =>
      cases ca with
      | time n u => simp [Axis.isOther] at ho
      | space n u => simp [Axis.isOther] at ho
      | channel n u =>
        have homem2 : n ∉ names := homem
        simp only [List.cons_append, List.nil_append, validateAxesLoop, Axis.name,
          if_neg homem2, Nat.lt_irrefl, if_false, Bool.false_eq_true, decide_False]
        exact validateAxesLoop_spaces sp 0 ht true (n :: names) hsp hnodup2
          hspfresh (by omega) (by omega)

/-- C5: every axes sequence of the form optional Time axis, then optional
Channel-or-Custom axis, then 2 or 3 Space axes, with all axis names pairwise
distinct, validates successfully. -/
theorem ordered_axes_validate_ok (tp op sp : List Axis)
    (htp1 : tp.length ≤ 1) (htp2 : ∀ a ∈ tp, a.isTime = true)
    (hop1 : op.length ≤ 1) (hop2 : ∀ a ∈ op, a.isOther = true)
    (hsp : ∀ a ∈ sp, a.isSpace = true)
    (hlen : sp.length = 2 ∨ sp.length = 3)
    (hnodup : ((tp ++ op ++ sp).map Axis.name).Nodup) :
    InvalidAxes.validate (tp ++ op ++ sp) = .ok () := by
  have hcount : ¬ ((tp ++ op ++ sp).length < 2 ∨ 5 < (tp ++ op ++ sp).length) := by
    simp only [List.length_append]
    omega
  simp only [InvalidAxes.validate, if_neg hcount]
  cases tp with
  | nil =>
    simp only [List.nil_append] at hnodup ⊢
    exact validateAxesLoop_other_spaces op sp hop1 hop2 hsp hlen false []
      hnodup (by simp)
  | cons t tl =>
    have htl : tl = [] := by
      have h0 : tl.length = 0 := by
        simp only [List.length_cons] at htp1
        omega
      exact List.length_eq_zero.mp h0
    subst htl
    have htt : t.isTime = true := htp2 t (List.mem_cons_self t [])
    have hnodup2 : ((op ++ sp).map Axis.name).Nodup := by
      simp only [List.cons_append, List.nil_append, List.map_cons,
        List.nodup_cons] at hnodup
      exact hnodup.2
    have htfresh : t.name ∉ (op ++ sp).map Axis.name := by
      simp only [List.cons_append, List.nil_append, List.map_cons,
        List.nodup_cons] at hnodup
      exact hnodup.1
    have hrest : ∀ a ∈ op ++ sp, a.name ∉ [t.name] := by
      intro a hain
      simp only [List.mem_singleton]
      intro hne
      exact htfresh (hne ▸ List.mem_map_of_mem Axis.name hain)
    cases t with
    | custom n ty u => simp [Axis.isTime] at htt
    | core ca =>
      cases ca with
      | space n u => simp [Axis.isTime] at htt
      | channel n u => simp [Axis.isTime] at htt
      | time n u =>
        have hmem : n ∉ ([] : List String) := List.not_mem_nil n
        simp only [List.cons_append, List.nil_append, validateAxesLoop,
          Axis.name, if_neg hmem, Nat.lt_irrefl, if_false, Bool.false_eq_true,
          decide_False]
        exact validateAxesLoop_other_spaces op sp hop1 hop2 hsp hlen true
          [n] hnodup2 hrest

theorem ordered_axes_validate_ok_witness :
    List.length [Axis.core (.time ("t") none)] ≤ 1 ∧
    InvalidAxes.validate ([Axis.core (.time ("t") none)] ++
      [Axis.core (.channel ("c") none)] ++
      [Axis.core (.space ("x") none), Axis.core (.space ("y") none)]) = .ok () :=
  ⟨by decide,
    ordered_axes_validate_ok
      [Axis.core (.time ("t") none)]
      [Axis.core (.channel ("c") none)]
      [Axis.core (.space ("x") none), Axis.core (.space ("y") none)]
      (by decide) (by decide) (by decide) (by decide) (by decide)
      (by decide) (by decide)⟩

/-! C7: the per-well cross-checks of `Plate::validate`. -/

/-- Whether a well's indices resolve and its stored path matches
`"\x7brow_name\x7d/\x7bcolumn_name\x7d"`. -/
def wellOk (rows columns : List Index) (w : PlateWell) : Bool :=
  match rows.get? w.row_index, columns.get? w.column_index with
  | some r, some c => w.path == r.name ++ "/" ++ c.name
  | _, _ => false

theorem checkWellsLoop_ok (rows columns : List Index) (ws : List PlateWell)
    (h : ∀ w ∈ ws, wellOk rows columns w = true) :
    checkWellsLoop rows columns ws = .ok () := by
  induction ws with
  | nil => rfl
  | cons w rest ih =>
    have hw : wellOk rows columns w = true := h w (List.mem_cons_self w rest)
    simp only [wellOk] at hw
    simp only [checkWellsLoop]
    cases hr : rows.get? w.row_index with
    | none => rw [hr] at hw; cases hw
    | some r =>
      cases hc : columns.get? w.column_index with
      | none => rw [hr, hc] at hw; cases hw
      | some c =>
        rw [hr, hc] at hw
        have hpath : w.path = r.name ++ "/" ++ c.name := by
          exact eq_of_beq hw
        simp only [hpath, ne_eq, not_true_eq_false, if_false]
        exact ih (fun u hu => h u (List.mem_cons_of_mem w hu))

theorem checkWellsLoop_prefix (rows columns : List Index)
    (pre : List PlateWell) (ws : List PlateWell)
    (h : ∀ u ∈ pre, wellOk rows columns u = true) :
    checkWellsLoop rows columns (pre ++ ws) = checkWellsLoop rows columns ws := by
  induction pre with
  | nil => rfl
  | cons u rest ih =>
    have hu : wellOk rows columns u = true := h u (List.mem_cons_self u rest)
    simp only [wellOk] at hu
    simp only [List.cons_append, checkWellsLoop]
    cases hr : rows.get? u.row_index with
    | none => rw [hr] at hu; cases hu
    | some r =>
      cases hc : columns.get? u.column_index with
      | none => rw [hr, hc] at hu; cases hu
      | some c =>
        rw [hr, hc] at hu
        have hpath : u.path = r.name ++ "/" ++ c.name := eq_of_beq hu
        simp only [hpath, ne_eq, not_true_eq_false, if_false]
        exact ih (fun v hv => h v (List.mem_cons_of_mem u hv))

/-- C7: for a plate whose rows, columns and acquisitions pass their own
checks: if every well resolves and matches its path the plate validates; and
for the first well violating the checks (all earlier wells being fine), an
out-of-range row index fails with `NonexistentWell` carrying that row index,
an in-range row but out-of-range column index fails with `NonexistentWell`
carrying that column index, and resolved indices with a mismatched stored
path fail with the inconsistent-well error. -/
theorem plate_well_cross_checks (p : Plate)
    (hr : validate_index p.rows = .ok ())
    (hc : validate_index p.columns = .ok ())
    (ha : validateOptAcquisitions p.acquisitions = .ok ()) :
    ((∀ w ∈ p.wells, wellOk p.rows p.columns w = true) → p.validate = .ok ()) ∧
    (∀ pre w post, p.wells = pre ++ w :: post →
      (∀ u ∈ pre, wellOk p.rows p.columns u = true) →
      ((p.rows.length ≤ w.row_index →
          p.validate = .error (.nonexistentWell w.row_index)) ∧
       (∀ r, p.rows.get? w.row_index = some r →
          p.columns.length ≤ w.column_index →
          p.validate = .error (.nonexistentWell w.column_index)) ∧
       (∀ r c, p.rows.get? w.row_index = some r →
          p.columns.get? w.column_index = some c →
          w.path ≠ r.name ++ "/" ++ c.name →
          p.validate = .error .inconsistentWells))) := by
  have hv : p.validate = checkWellsLoop p.rows p.columns p.wells := by
    simp only [Plate.validate, hr, hc, ha]
  constructor
  · intro hall
    rw [hv]
    exact checkWellsLoop_ok p.rows p.columns p.wells hall
  · intro pre w post hsplit hpre
    rw [hv, hsplit, checkWellsLoop_prefix p.rows p.columns pre (w :: post) hpre]
    refine ⟨?_, ?_, ?_⟩
    · intro hrow
      have hget : p.rows.get? w.row_index = none := by
        simpa using List.getElem?_eq_none hrow
      simp only [checkWellsLoop, hget]
    · intro r hget hcol
      have hgetc : p.columns.get? w.column_index = none := by
        simpa using List.getElem?_eq_none hcol
      simp only [checkWellsLoop, hget, hgetc]
    · intro r c hget hgetc hne
      simp only [checkWellsLoop, hget, hgetc, ne_eq, hne, not_false_eq_true,
        if_true]

/-- The first plate example from the source's test module, restricted to a
single consistent well, plus an inconsistent variant from the spec's example
(`path:"A/3", row:0, col:0`). -/
def plateGood : Plate :=
  { acquisitions := none
  , columns := [⟨"1"⟩, ⟨"2"⟩, ⟨"3"⟩]
  , field_count := some 4
  , name := some ("test")
  , rows := [⟨"A"⟩, ⟨"B"⟩]
  , version := some ("0.4")
  , wells := [⟨"A/2", 0, 1⟩] }

def plateBad : Plate :=
  { plateGood with wells := [⟨"A/3", 0, 0⟩] }

theorem plate_well_cross_checks_witness :
    Plate.validate plateGood = .ok () ∧
    Plate.validate plateBad = .error .inconsistentWells :=
  ⟨(plate_well_cross_checks plateGood (by decide) (by decide) (by decide)).1
      (by decide),
   ((plate_well_cross_checks plateBad (by decide) (by decide) (by decide)).2
      [] ⟨"A/3", 0, 0⟩ [] rfl (by decide)).2.2 ⟨"A"⟩ ⟨"1"⟩ rfl rfl (by decide)⟩

/-! C8: the acquisition-id checks of `Well::validate`. -/

/-- Whether a field of view carries an acquisition id belonging to `acqs`. -/
def fovOk (acqs : List Nat) (im : FieldOfView) : Bool :=
  match im.acquisition with
  | some a => decide (a ∈ acqs)
  | none => false

theorem wellLoop_none_ok (ims : List FieldOfView) :
    ∀ (paths : List String),
      (∀ im ∈ ims, charsAll im.path rustIsAlphanumeric = true) →
      (ims.map FieldOfView.path).Nodup →
      (∀ im ∈ ims, im.path ∉ paths) →
      wellLoop none ims paths = .ok () := by
  induction ims with
  | nil => intro paths _ _ _; rfl
  | cons im rest ih =>
    intro paths halnum hnodup hfresh
    have h1 : charsAll im.path rustIsAlphanumeric = true :=
      halnum im (List.mem_cons_self im rest)
    have h2 : im.path ∉ paths := hfresh im (List.mem_cons_self im rest)
    simp only [wellLoop, h1, Bool.not_true, Bool.false_eq_true, if_false,
      if_neg h2]
    refine ih (im.path :: paths)
      (fun u hu => halnum u (List.mem_cons_of_mem im hu))
      (List.nodup_cons.mp hnodup).2 ?_
    intro u hu
    simp only [List.mem_cons]
    push_neg
    refine ⟨?_, fun hp => hfresh u (List.mem_cons_of_mem im hu) hp⟩
    intro hp
    exact (List.nodup_cons.mp hnodup).1
      (hp ▸ List.mem_map_of_mem FieldOfView.path hu)

theorem wellLoop_some_prefix (acqs : List Nat) (pre : List FieldOfView)
    (ims : List FieldOfView) :
    ∀ (paths : List String),
      (∀ im ∈ pre, charsAll im.path rustIsAlphanumeric = true) →
      ((pre.map FieldOfView.path).Nodup) →
      (∀ im ∈ pre, im.path ∉ paths) →
      (∀ im ∈ pre, fovOk acqs im = true) →
      wellLoop (some acqs) (pre ++ ims) paths =
        wellLoop (some acqs) ims (pre.reverse.map FieldOfView.path ++ paths) := by
  induction pre with
  | nil => intro paths _ _ _ _; rfl
  | cons im rest ih =>
    intro paths halnum hnodup hfresh hok
    have h1 : charsAll im.path rustIsAlphanumeric = true :=
      halnum im (List.mem_cons_self im rest)
    have h2 : im.path ∉ paths := hfresh im (List.mem_cons_self im rest)
    have h3 : fovOk acqs im = true := hok im (List.mem_cons_self im rest)
    simp only [fovOk] at h3
    simp only [List.cons_append, wellLoop, h1, Bool.not_true,
      Bool.false_eq_true, if_false, if_neg h2]
    cases hacq : im.acquisition with
    | none => rw [hacq] at h3; cases h3
    | some a =>
      rw [hacq] at h3
      have ha2 : a ∈ acqs := of_decide_eq_true h3
      simp only [ha2, not_true_eq_false, if_false]
      have hfresh2 : ∀ u ∈ rest, u.path ∉ im.path :: paths := by
        intro u hu
        simp only [List.mem_cons]
        push_neg
        refine ⟨?_, fun hp => hfresh u (List.mem_cons_of_mem im hu) hp⟩
        intro hp
        exact (List.nodup_cons.mp hnodup).1
          (hp ▸ List.mem_map_of_mem FieldOfView.path hu)
      have hih := ih (im.path :: paths)
        (fun u hu => halnum u (List.mem_cons_of_mem im hu))
        (List.nodup_cons.mp hnodup).2
        hfresh2
        (fun u hu => hok u (List.mem_cons_of_mem im hu))
      have hlist : List.map FieldOfView.path (im :: rest).reverse ++ paths
          = List.map FieldOfView.path rest.reverse ++ (im.path :: paths) := by
        simp
      rw [hlist]
      exact hih

/-- C8: for a well whose field-of-view paths are alphanumeric and pairwise
distinct: validation with no acquisition-id set always succeeds; and when an
acquisition-id set is supplied and every earlier field of view carries an id
from the set, a field of view with no acquisition id fails with the
missing-required-acquisition-id error, and one whose id is outside the set
fails with the unknown-acquisition-id error carrying that id. -/
theorem well_acquisition_id_checks (w : Well) (acqs : List Nat)
    (halnum : ∀ im ∈ w.images, charsAll im.path rustIsAlphanumeric = true)
    (hnodup : (w.images.map FieldOfView.path).Nodup) :
    (w.validate none = .ok ()) ∧
    (∀ pre im post, w.images = pre ++ im :: post →
      (∀ u ∈ pre, fovOk acqs u = true) →
      ((im.acquisition = none →
          w.validate (some acqs) = .error .noAcquisition) ∧
       (∀ a, im.acquisition = some a → a ∉ acqs →
          w.validate (some acqs) = .error (.unknownAcquisition a)))) := by
  constructor
  · exact wellLoop_none_ok w.images [] halnum hnodup (by simp)
  · intro pre im post hsplit hpre
    have halnum2 : ∀ u ∈ pre, charsAll u.path rustIsAlphanumeric = true := by
      intro u hu
      exact halnum u (hsplit ▸ List.mem_append_left _ hu)
    have hnodup2 : ((pre ++ im :: post).map FieldOfView.path).Nodup :=
      hsplit ▸ hnodup
    have hprenodup : (pre.map FieldOfView.path).Nodup := by
      rw [List.map_append, List.nodup_append] at hnodup2
      exact hnodup2.1
    have hsplit2 : w.validate (some acqs) =
        wellLoop (some acqs) (im :: post)
          (pre.reverse.map FieldOfView.path ++ []) := by
      rw [show w.validate (some acqs) = wellLoop (some acqs) w.images [] from rfl,
        hsplit]
      exact wellLoop_some_prefix acqs pre (im :: post) [] halnum2 hprenodup
        (by simp) hpre
    have himal : charsAll im.path rustIsAlphanumeric = true :=
      halnum im (hsplit ▸ List.mem_append_right _ (List.mem_cons_self im post))
    have himfresh : im.path ∉ pre.reverse.map FieldOfView.path ++ [] := by
      rw [List.map_append, List.nodup_append] at hnodup2
      intro hmem
      simp only [List.append_nil, List.map_reverse, List.mem_reverse] at hmem
      exact hnodup2.2.2 hmem (by simp)
    constructor
    · intro hnone
      rw [hsplit2]
      simp only [wellLoop, himal, Bool.not_true, Bool.false_eq_true, if_false,
        if_neg himfresh, hnone]
    · intro a hsome hnotin
      rw [hsplit2]
      simp only [wellLoop, himal, Bool.not_true, Bool.false_eq_true, if_false,
        if_neg himfresh, hsome, hnotin, not_false_eq_true, if_true]

/-- The second well example from the source's test module. -/
def wellExample : Well :=
  { version := some ("0.4")
  , images := [⟨"0", some 1⟩, ⟨"1", some 3⟩] }

theorem well_acquisition_id_checks_witness :
    Well.validate wellExample none = .ok () ∧
    Well.validate wellExample (some [1, 2]) = .error (.unknownAcquisition 3) :=
  ⟨(well_acquisition_id_checks wellExample [1, 2] (by decide) (by decide)).1,
   ((well_acquisition_id_checks wellExample [1, 2] (by decide) (by decide)).2
      [⟨"0", some 1⟩] ⟨"1", some 3⟩ [] rfl (by decide)).2 3 rfl (by decide)⟩

end OmeNgff
